import Mathlib

/-!
Verification development for the `SigmaNetwork` component of the
plasmid_network repository (src/src/SigmaNetwork.jsx).

The component is shallowly embedded: JavaScript numbers are modelled as a
four-way sum (NaN, +Infinity, -Infinity, finite rational), attribute values
as a sum of undefined/null/number/string, external collaborators
(iwanthue, dicopal's getSequentialColors, Math.random, the irrational
d3 log/sqrt scales) as oracle parameters, and code that can raise as a
`JSResult`.  Stateful effects (visibility pass, dynamic edge loading, the
network-ready notification) are modelled as explicit state-passing
functions or small step machines over their React state/refs.
-/

namespace PlasmidNet

/-- A JavaScript number: NaN, the two infinities, or a finite value.
Finite doubles are modelled as rationals (float rounding is not modelled;
none of the verified properties depends on it). -/
inductive JSNum where
  | nan
  | posInf
  | negInf
  | finite (x : ℚ)
deriving DecidableEq

/-- A JavaScript attribute value as it occurs in the metadata/graph
attributes: undefined (absent attribute), null, a number, or a string. -/
inductive JSValue where
  | undef
  | null
  | num (n : JSNum)
  | str (s : String)
deriving DecidableEq

/-- `isNaN` on a JS number. -/
def JSNum.isNaN : JSNum → Bool
  | .nan => true
  | _ => false

/-- `Number.isFinite` on a JS number. -/
def JSNum.isFiniteJS : JSNum → Bool
  | .finite _ => true
  | _ => false

/-- JS `x > 0` comparison (false for NaN). -/
def JSNum.gtZero : JSNum → Bool
  | .posInf => true
  | .finite q => decide (0 < q)
  | _ => false

/-- JS subtraction with NaN/infinity propagation. -/
def JSNum.sub : JSNum → JSNum → JSNum
  | .nan, _ => .nan
  | _, .nan => .nan
  | .posInf, .posInf => .nan
  | .posInf, .negInf => .posInf
  | .posInf, .finite _ => .posInf
  | .negInf, .negInf => .nan
  | .negInf, .posInf => .negInf
  | .negInf, .finite _ => .negInf
  | .finite _, .posInf => .negInf
  | .finite _, .negInf => .posInf
  | .finite a, .finite b => .finite (a - b)

/-- JS multiplication with NaN/infinity propagation (signed zeros are
identified with zero). -/
def JSNum.mul : JSNum → JSNum → JSNum
  | .nan, _ => .nan
  | _, .nan => .nan
  | .posInf, .posInf => .posInf
  | .posInf, .negInf => .negInf
  | .negInf, .posInf => .negInf
  | .negInf, .negInf => .posInf
  | .posInf, .finite b => if b = 0 then .nan else if 0 < b then .posInf else .negInf
  | .negInf, .finite b => if b = 0 then .nan else if 0 < b then .negInf else .posInf
  | .finite a, .posInf => if a = 0 then .nan else if 0 < a then .posInf else .negInf
  | .finite a, .negInf => if a = 0 then .nan else if 0 < a then .negInf else .posInf
  | .finite a, .finite b => .finite (a * b)

/-- JS division with NaN/infinity propagation (signed zeros identified,
so `x / 0` takes the sign of `x`). -/
def JSNum.div : JSNum → JSNum → JSNum
  | .nan, _ => .nan
  | _, .nan => .nan
  | .posInf, .posInf => .nan
  | .posInf, .negInf => .nan
  | .negInf, .posInf => .nan
  | .negInf, .negInf => .nan
  | .posInf, .finite b => if 0 ≤ b then .posInf else .negInf
  | .negInf, .finite b => if 0 ≤ b then .negInf else .posInf
  | .finite _, .posInf => .finite 0
  | .finite _, .negInf => .finite 0
  | .finite a, .finite b =>
      if b = 0 then (if a = 0 then .nan else if 0 < a then .posInf else .negInf)
      else .finite (a / b)

/-- JS `Math.min` (NaN absorbing). -/
def JSNum.minJS : JSNum → JSNum → JSNum
  | .nan, _ => .nan
  | _, .nan => .nan
  | .negInf, _ => .negInf
  | _, .negInf => .negInf
  | .posInf, b => b
  | a, .posInf => a
  | .finite a, .finite b => .finite (min a b)

/-- JS `Math.max` (NaN absorbing). -/
def JSNum.maxJS : JSNum → JSNum → JSNum
  | .nan, _ => .nan
  | _, .nan => .nan
  | .posInf, _ => .posInf
  | _, .posInf => .posInf
  | .negInf, b => b
  | a, .negInf => a
  | .finite a, .finite b => .finite (max a b)

/-- JS `Math.floor`. -/
def JSNum.floorJS : JSNum → JSNum
  | .nan => .nan
  | .posInf => .posInf
  | .negInf => .negInf
  | .finite q => .finite ((⌊q⌋ : ℤ) : ℚ)

/-! ### JS string-to-number coercion

`Number(string)` and `parseFloat(string)` as used by the classifier and
the coordinate loader.  The decimal grammar (optional sign, digits,
optional fraction, optional exponent, `Infinity`, ASCII whitespace
trimming) is modelled; hex/octal/binary literals and non-ASCII whitespace
are omitted, as no metadata value in this program's claims exercises them. -/

def digitVal (c : Char) : ℕ := c.toNat - '0'.toNat

/-- Take a maximal run of decimal digits off the front of a character list. -/
def takeDigits : List Char → List ℕ × List Char
  | [] => ([], [])
  | c :: cs =>
      if c.isDigit then
        let p := takeDigits cs
        (digitVal c :: p.1, p.2)
      else ([], c :: cs)

def natOfDigits (ds : List ℕ) : ℕ := ds.foldl (fun a d => 10 * a + d) 0

/-- Read an optional leading sign; `true` means negative. -/
def readSign : List Char → Bool × List Char
  | '-' :: cs => (true, cs)
  | '+' :: cs => (false, cs)
  | cs => (false, cs)

/-- Apply an optional exponent suffix (`e`/`E`, optional sign, digits) to an
already-parsed mantissa.  If the exponent has no digits it is not consumed
(so `parseFloat` backtracks over a dangling `e`). -/
def applyExp (base : ℚ) (cs : List Char) : ℚ × List Char :=
  match cs with
  | c :: r =>
      if c = 'e' ∨ c = 'E' then
        let sp := readSign r
        let dp := takeDigits sp.2
        if dp.1.isEmpty then (base, cs)
        else
          (if sp.1 then base / 10 ^ natOfDigits dp.1 else base * 10 ^ natOfDigits dp.1, dp.2)
      else (base, cs)
  | [] => (base, [])

/-- Parse an unsigned decimal literal off the front of a character list:
`digits [. digits] [exp]` or `. digits [exp]`. -/
def decAtFront (cs : List Char) : Option (ℚ × List Char) :=
  let ip := takeDigits cs
  match ip.2 with
  | '.' :: r2 =>
      let fp := takeDigits r2
      if ip.1.isEmpty ∧ fp.1.isEmpty then none
      else some (applyExp ((natOfDigits ip.1 : ℚ) + (natOfDigits fp.1 : ℚ) / 10 ^ fp.1.length) fp.2)
  | _ =>
      if ip.1.isEmpty then none else some (applyExp (natOfDigits ip.1) ip.2)

def infinityChars : List Char := ['I', 'n', 'f', 'i', 'n', 'i', 't', 'y']

/-- Does the second list start with the first one? -/
def startsWith : List Char → List Char → Bool
  | [], _ => true
  | _ :: _, [] => false
  | p :: ps, c :: cs => p == c && startsWith ps cs

/-- Parse a signed numeric literal (decimal or `Infinity`) off the front of a
character list. -/
def numAtFront (cs : List Char) : Option (JSNum × List Char) :=
  let sp := readSign cs
  if startsWith infinityChars sp.2 then
    some (if sp.1 then JSNum.negInf else JSNum.posInf, sp.2.drop infinityChars.length)
  else
    match decAtFront sp.2 with
    | some (q, rest) => some (JSNum.finite (if sp.1 then -q else q), rest)
    | none => none

def isSpaceCh (c : Char) : Bool := c == ' ' || c == '\t' || c == '\n' || c == '\r'

def trimChars (cs : List Char) : List Char :=
  ((cs.dropWhile isSpaceCh).reverse.dropWhile isSpaceCh).reverse

/-- JS `Number(s)` on a string: trim, empty string is `0`, otherwise the whole
trimmed string must be one numeric literal, else NaN. -/
def strToNumber (s : String) : JSNum :=
  let cs := trimChars s.toList
  if cs.isEmpty then .finite 0
  else
    match numAtFront cs with
    | some (n, rest) => if rest.isEmpty then n else .nan
    | none => .nan

/-- JS `parseFloat(s)` on a string: skip leading whitespace, parse the longest
numeric literal at the front, NaN if there is none. -/
def strParseFloat (s : String) : JSNum :=
  match numAtFront (s.toList.dropWhile isSpaceCh) with
  | some (n, _) => n
  | none => .nan

/-- JS `Number(v)` coercion on an attribute value: `undefined ↦ NaN`,
`null ↦ 0`, numbers unchanged, strings via the string grammar. -/
def JSValue.toNumber : JSValue → JSNum
  | .undef => .nan
  | .null => .finite 0
  | .num n => n
  | .str s => strToNumber s

/-- JS `parseFloat(v)`: the argument is coerced to a string first, so
`undefined` and `null` (strings "undefined"/"null") give NaN, numbers
round-trip through their string form (modelled as the identity). -/
def JSValue.parseFloatJS : JSValue → JSNum
  | .undef => .nan
  | .null => .nan
  | .num n => n
  | .str s => strParseFloat s

/-! ### Graph build (`loadFromEdgeList` and the metadata map effect) -/

/-- An edge row from the Parquet edge table: `{source, target, weight}`.
The materialized edge display attributes (`weight: r.weight || 1`,
constant grey color and size 1) are carried by `weight`; graphology keys
edges by their endpoints, which is how the edge-set claims quantify them. -/
structure EdgeRow where
  source : String
  target : String
  weight : JSValue
deriving DecidableEq

/-- A metadata row: its `id` column plus its full key/value record (the
source stores the whole row object in the map, so `attrs` is the row's own
attribute set). -/
structure MetaRow where
  id : String
  attrs : List (String × JSValue)
deriving DecidableEq

/-- Attribute lookup on a JS record: an absent key reads as `undefined`. -/
def getAttrList (attrs : List (String × JSValue)) (k : String) : JSValue :=
  match attrs.lookup k with
  | some v => v
  | none => JSValue.undef

/-- The metadata-map effect: `metadataRows.forEach(r => { if (r.id) map[r.id] = r })`.
Rows with a falsy (empty) id are skipped; a later row with the same id
overwrites an earlier one. -/
def buildMetaMap (rows : List MetaRow) : List (String × List (String × JSValue)) :=
  rows.foldl (fun m r => if r.id = "" then m else m.filter (fun p => p.1 ≠ r.id) ++ [(r.id, r.attrs)]) []

/-- A node of the built render graph:
`graph.addNode(id, { ...attrs, x, y, size: 0.7, label: id })`. -/
structure BuiltNode where
  id : String
  attrs : List (String × JSValue)
  x : JSNum
  y : JSNum
deriving DecidableEq

/-- `graph.getNodeAttribute(node, k)`: the spread keys `x`, `y`, `size` and
`label` override same-named metadata columns; everything else comes from the
metadata record. -/
def BuiltNode.getAttr (n : BuiltNode) (k : String) : JSValue :=
  if k = "x" then .num n.x
  else if k = "y" then .num n.y
  else if k = "size" then .num (.finite (7 / 10))
  else if k = "label" then .str n.id
  else getAttrList n.attrs k

/-- Order-preserving deduplication, as a JS `Set` built by insertion. -/
def dedupKeep {α : Type} [DecidableEq α] (xs : List α) : List α :=
  xs.foldl (fun acc x => if x ∈ acc then acc else acc ++ [x]) []

/-- `new Set(edges.flatMap(e => [e.source, e.target]))`. -/
def nodeIds (edgeRows : List EdgeRow) : List String :=
  dedupKeep ((edgeRows.map (fun e => [e.source, e.target])).flatten)

/-- The node-building loop of `loadFromEdgeList`: each endpoint id becomes a
node; its metadata record (if any) supplies the attributes; `x`/`y` are
`parseFloat` of the metadata columns with a `Math.random() * 10` fallback
when that is NaN (`rand` is the `Math.random` oracle, one pair per node). -/
def buildNodes (edgeRows : List EdgeRow) (metaRows : List MetaRow)
    (rand : String → ℚ × ℚ) : List BuiltNode :=
  (nodeIds edgeRows).map (fun id =>
    let attrs := ((buildMetaMap metaRows).lookup id).getD []
    let px := (getAttrList attrs "x").parseFloatJS
    let py := (getAttrList attrs "y").parseFloatJS
    { id := id
      attrs := attrs
      x := if px.isNaN then .finite ((rand id).1 * 10) else px
      y := if py.isNaN then .finite ((rand id).2 * 10) else py })

/-- `graph.addEdge(s, t, attrs)` wrapped in `try {} catch {}`: graphology
throws (and the code swallows it) when an endpoint is not a node or a
directed edge with the same endpoints already exists, so the add is a no-op
in those cases. -/
def addEdgeTry (ids : List String) (g : List (String × String)) (s t : String) :
    List (String × String) :=
  if s ∈ ids ∧ t ∈ ids ∧ (s, t) ∉ g then g ++ [(s, t)] else g

/-- `if (edgeMode === 'all') edges.forEach(e => { try { graph.addEdge(...) } catch {} })`. -/
def materializeAll (ids : List String) (edgeRows : List EdgeRow) : List (String × String) :=
  edgeRows.foldl (fun g e => addEdgeTry ids g e.source e.target) []

/-- The graph produced by `loadFromEdgeList`. -/
structure BuiltGraph where
  nodes : List BuiltNode
  edges : List (String × String)
deriving DecidableEq

/-- `loadFromEdgeList`: build the node set from the edge endpoints, then add
every edge when `edgeMode === 'all'` (otherwise the graph starts edge-free). -/
def loadFromEdgeList (edgeRows : List EdgeRow) (metaRows : List MetaRow)
    (edgeMode : String) (rand : String → ℚ × ℚ) : BuiltGraph :=
  let ns := buildNodes edgeRows metaRows rand
  { nodes := ns
    edges := if edgeMode = "all" then materializeAll (ns.map (·.id)) edgeRows else [] }

/-! ### Attribute classifier (`handleCommunities`, numeric detection) -/

/-- `nodes.map(node => ({node, v: Number(getNodeAttribute(node, colorBy))})).filter(d => !isNaN(d.v))`. -/
def numericPairs (colorBy : String) (nodes : List BuiltNode) : List (String × JSNum) :=
  (nodes.map (fun n => (n.id, (n.getAttr colorBy).toNumber))).filter (fun p => ¬ p.2.isNaN)

/-- `const numeric = numericData.length === nodes.length` — the attribute
classifier: ColorKey counts as numeric when no node's coerced value is NaN. -/
def classifyNumeric (colorBy : String) (nodes : List BuiltNode) : Bool :=
  (numericPairs colorBy nodes).length == nodes.length


/-! ### External collaborators and JS evaluation results -/

/-- Outcome of calling an external collaborator: it returned a value,
returned `undefined`, or raised. -/
inductive ExtResult (α : Type) where
  | ok (a : α)
  | undef
  | thrown (msg : String)
deriving DecidableEq

/-- Result of evaluating a piece of JS code that may raise. -/
inductive JSResult (α : Type) where
  | ok (a : α)
  | thrown (msg : String)
deriving DecidableEq

def JSResult.isOk {α : Type} : JSResult α → Bool
  | .ok _ => true
  | .thrown _ => false

def JSResult.getOkD {α : Type} (r : JSResult α) (d : α) : α :=
  match r with
  | .ok a => a
  | .thrown _ => d

/-- Did a guarded call end up skipped as a nested invocation? -/
def isSkipResult {α : Type} [DecidableEq α] (r : JSResult (Option α)) : Bool :=
  r == .ok none

/-- Sequencing of JS evaluation: an exception short-circuits. -/
def bindJS {α β : Type} (r : JSResult α) (f : α → JSResult β) : JSResult β :=
  match r with
  | .thrown m => .thrown m
  | .ok a => f a

/-- `r || []` on an external call that did not raise: an `undefined` result
falls back to the empty array (a returned array, even empty, is truthy). -/
def extOrEmpty (r : ExtResult (List String)) : List String :=
  match r with
  | .ok l => l
  | _ => []

/-- The external collaborators of `handleCommunities`:
`iwanthue` (distinct color generator), dicopal's `getSequentialColors`,
`Math.random` as used by the Fisher-Yates shuffle (`rng i` models
`Math.floor(Math.random() * (i + 1))`, reduced mod `i + 1`), and the
irrational d3 `scaleLog`/`scaleSqrt` transforms (domain min, domain max,
value ↦ scaled value). -/
structure Ext where
  iwanthue : ℕ → ExtResult (List String)
  getSequentialColors : String → ℕ → ExtResult (List String)
  rng : ℕ → ℕ
  logScale : JSNum → JSNum → JSNum → JSNum
  sqrtScale : JSNum → JSNum → JSNum → JSNum

/-! ### Scale transforms and the numeric gradient mapping -/

/-- `const numGradientSteps = 100`. -/
def numGradientSteps : ℕ := 100

/-- d3 `scaleLinear().domain([a, b]).range([0, 1])` applied to `v`:
internally d3 computes `d = b - a` and uses `(v - a) / d` when `d` is
truthy, the constant `0.5` when `d` is zero, and NaN when `d` is NaN. -/
def d3LinearNormalize (minV maxV v : JSNum) : JSNum :=
  match maxV.sub minV with
  | .finite d => if d = 0 then .finite (1 / 2) else (v.sub minV).div (.finite d)
  | .nan => .nan
  | d => (v.sub minV).div d

/-- The d3 power-2 transform: `x ↦ x < 0 ? -((-x)^2) : x^2`. -/
def powTransform2 : JSNum → JSNum
  | .nan => .nan
  | .posInf => .posInf
  | .negInf => .negInf
  | .finite q => if q < 0 then .finite (-(q * q)) else .finite (q * q)

/-- The scale chosen by `scaleType`: `log` clamps a non-positive domain
minimum to `1e-6` first and delegates to the external log transform,
`sqrt` delegates to the external sqrt transform, `pow` is d3
`scalePow().exponent(2)`, anything else is the linear scale. -/
def applyScale (ext : Ext) (scaleType : String) (minV maxV v : JSNum) : JSNum :=
  if scaleType = "log" then
    ext.logScale (if minV.gtZero then minV else .finite (1 / 1000000)) maxV v
  else if scaleType = "sqrt" then ext.sqrtScale minV maxV v
  else if scaleType = "pow" then
    d3LinearNormalize (powTransform2 minV) (powTransform2 maxV) (powTransform2 v)
  else d3LinearNormalize minV maxV v

/-- `Math.max(0, Math.min(1, scaled))`. -/
def clamp01 (s : JSNum) : JSNum := JSNum.maxJS (.finite 0) (JSNum.minJS (.finite 1) s)

/-- The gradient stop chosen for one node value: the literal midpoint index
`Math.floor(numGradientSteps / 2)` when `range === 0`, otherwise
`Math.floor(clamped * (numGradientSteps - 1))` of the scaled value. -/
def numericStopIndex (ext : Ext) (scaleType : String) (minV maxV v : JSNum) : JSNum :=
  if maxV.sub minV = .finite 0 then (JSNum.finite ((numGradientSteps : ℚ) / 2)).floorJS
  else ((clamp01 (applyScale ext scaleType minV maxV v)).mul (.finite ((numGradientSteps : ℚ) - 1))).floorJS

/-- `colors[i] ?? d` where `i` is a JS number: indexing with NaN, an
infinity, a negative or an out-of-range index reads `undefined`, which
`??` replaces with `d`. -/
def jsIndexGetD (colors : List String) (i : JSNum) (d : String) : String :=
  match i with
  | .finite q =>
      if 0 ≤ q ∧ q.den = 1 then (colors.get? q.num.toNat).getD d else d
  | _ => d

/-! ### Palette builders (`handleCommunities`) -/

/-- `v != null && v !== '' ? v : ''` — the PTU sentinel normalization. -/
def normPTU (v : JSValue) : JSValue :=
  if v ≠ .null ∧ v ≠ .undef ∧ v ≠ .str "" then v else .str ""

/-- `list.forEach((v, i) => pal[v] = f(i, v))` materialized as an
association list (keys are the values themselves; JS coerces object keys to
strings, which is injective on every key set this program builds). -/
def zipIdxColor (f : ℕ → JSValue → String) : ℕ → List JSValue → List (JSValue × String)
  | _, [] => []
  | i, v :: vs => (v, f i v) :: zipIdxColor f (i + 1) vs

/-- `ptu === '' ? '#d3d3d3' : (ptuColors[i] || '#888')` — note `||`, so an
empty-string color also falls back. -/
def ptuEntryColor (colors : List String) (i : ℕ) (v : JSValue) : String :=
  if v = .str "" then "#d3d3d3"
  else
    match colors.get? i with
    | some c => if c = "" then "#888" else c
    | none => "#888"

/-- `comm === '' ? '#d3d3d3' : (colorsCat[i] ?? '#888')` — note `??`, so only
a missing entry falls back. -/
def catEntryColor (colors : List String) (i : ℕ) (v : JSValue) : String :=
  if v = .str "" then "#d3d3d3" else (colors.get? i).getD "#888"

/-- The distinct normalized PTU values, in first-seen order. -/
def ptuValues (nodes : List BuiltNode) : List JSValue :=
  dedupKeep (nodes.map (fun n => normPTU (n.getAttr "new_PTU")))

/-- The PTU palette computed at the top of every `handleCommunities` run:
`iwanthue(ptuList.length) || []`, then one entry per distinct PTU value.
A raising `iwanthue` propagates (there is no catch). -/
def buildPTUPal (ext : Ext) (nodes : List BuiltNode) : JSResult (List (JSValue × String)) :=
  match ext.iwanthue (ptuValues nodes).length with
  | .thrown m => .thrown m
  | r => .ok (zipIdxColor (ptuEntryColor (extOrEmpty r)) 0 (ptuValues nodes))

/-- The distinct non-null `colorBy` values over the graph nodes
(`if (v != null) commSet.add(v)`), in first-seen order. -/
def commValues (colorBy : String) (nodes : List BuiltNode) : List JSValue :=
  dedupKeep ((nodes.map (fun n => n.getAttr colorBy)).filter (fun v => v ≠ .null ∧ v ≠ .undef))

/-- Swap two positions of a list (identity when either index is out of range). -/
def swapList {α : Type} (l : List α) (i j : ℕ) : List α :=
  match l.get? i, l.get? j with
  | some a, some b => (l.set i b).set j a
  | _, _ => l

/-- The unseeded Fisher-Yates shuffle of the categorical colors:
`for (i = len-1; i > 0; i--) swap(i, Math.floor(Math.random() * (i+1)))`. -/
def shuffleColors (rng : ℕ → ℕ) (l : List String) : List String :=
  (List.range l.length).reverse.foldl
    (fun acc i => if i = 0 then acc else swapList acc i (rng i % (i + 1))) l

/-- Is every value a string? (`String.prototype.localeCompare` is only
defined on string receivers.) -/
def allStringsB (l : List JSValue) : Bool :=
  l.all (fun v => match v with | .str _ => true | _ => false)

def jsStrOf : JSValue → String
  | .str s => s
  | _ => ""

def insertByStr (x : JSValue) : List JSValue → List JSValue
  | [] => [x]
  | y :: ys => if jsStrOf x ≤ jsStrOf y then x :: y :: ys else y :: insertByStr x ys

/-- Insertion sort by the underlying string. -/
def sortByStr : List JSValue → List JSValue
  | [] => []
  | x :: xs => insertByStr x (sortByStr xs)

/-- `arr.sort((a, b) => a.localeCompare(b))`: with zero or one element the
comparator never runs; with string elements it sorts (locale collation is
modelled as codepoint order — no claim depends on the collation); a
comparator applied to a non-string receiver raises a TypeError. -/
def sortJSByLocale (l : List JSValue) : JSResult (List JSValue) :=
  if l.length ≤ 1 then .ok l
  else if allStringsB l then .ok (sortByStr l) else .thrown "TypeError"

/-- The published palette: value-keyed (categorical and PTU modes) or
node-keyed (numeric mode). -/
inductive PaletteOut where
  | byValue (m : List (JSValue × String))
  | byNode (m : List (String × String))
deriving DecidableEq

def paletteSize : PaletteOut → ℕ
  | .byValue m => m.length
  | .byNode m => m.length

/-- The state published atomically at the end of `handleCommunities`
(`setIsNumeric` / `setPalette` / `setCommunities` / `setVisibleComms` /
conditional `setNumericPaletteState`). -/
structure CommResult where
  ptuPal : List (JSValue × String)
  palette : PaletteOut
  communities : List JSValue
  visibleComms : List JSValue
  numericPaletteState : Option (List String)
  isNumeric : Bool
deriving DecidableEq

/-- The per-node color assignment loop of the numeric branch.  `palColors`
is `none` when `getSequentialColors` returned `undefined`: indexing
`undefined` then raises a TypeError at the first node (an empty node list
never indexes and survives). -/
def assignColors (ext : Ext) (scaleType : String) (minV maxV : JSNum)
    (palColors : Option (List String)) :
    List (String × JSNum) → JSResult (List (String × String))
  | [] => .ok []
  | (id, v) :: rest =>
      match palColors with
      | none => .thrown "TypeError"
      | some colors =>
          bindJS (assignColors ext scaleType minV maxV (some colors) rest) (fun m =>
            .ok ((id, jsIndexGetD colors (numericStopIndex ext scaleType minV maxV v) "#888") :: m))

/-- `values.reduce((a, b) => Math.min(a, b), Infinity)`. -/
def numericMin (pairs : List (String × JSNum)) : JSNum :=
  (pairs.map (·.2)).foldl JSNum.minJS .posInf

/-- `values.reduce((a, b) => Math.max(a, b), -Infinity)`. -/
def numericMax (pairs : List (String × JSNum)) : JSNum :=
  (pairs.map (·.2)).foldl JSNum.maxJS .negInf

/-- The numeric branch: global min/max by `reduce` with infinite seeds,
`getSequentialColors(name, 100)` (optionally reversed — spreading an
`undefined` result raises), then the per-node stop assignment. -/
def buildNumeric (ext : Ext) (sequentialPaletteName : String) (isReversed : Bool)
    (scaleType : String) (pairs : List (String × JSNum)) :
    JSResult (List (String × String) × Option (List String)) :=
  match ext.getSequentialColors sequentialPaletteName numGradientSteps with
  | .thrown m => .thrown m
  | .undef =>
      if isReversed then .thrown "TypeError"
      else
        bindJS (assignColors ext scaleType (numericMin pairs) (numericMax pairs) none pairs)
          (fun palMap => .ok (palMap, none))
  | .ok l =>
      bindJS (assignColors ext scaleType (numericMin pairs) (numericMax pairs)
          (some (if isReversed then l.reverse else l)) pairs)
        (fun palMap => .ok (palMap, some (if isReversed then l.reverse else l)))

/-- `newCommunities`: the sorted non-missing values followed by the missing
sentinel whenever it occurred. -/
def catComms (colorBy : String) (nodes : List BuiltNode) (sortedNM : List JSValue) :
    List JSValue :=
  sortedNM ++ (if JSValue.str "" ∈ commValues colorBy nodes then [JSValue.str ""] else [])

/-- The categorical branch: distinct non-null values,
`iwanthue(n) || []` shuffled, values sorted lexically with the missing
sentinel last, and one palette entry per value. -/
def buildCategorical (ext : Ext) (colorBy : String) (nodes : List BuiltNode) :
    JSResult (List (JSValue × String) × List JSValue) :=
  match ext.iwanthue (commValues colorBy nodes).length with
  | .thrown m => .thrown m
  | r =>
      match sortJSByLocale ((commValues colorBy nodes).filter (fun v => v ≠ .str "")) with
      | .thrown m => .thrown m
      | .ok sortedNM =>
          .ok (zipIdxColor (catEntryColor (shuffleColors ext.rng (extOrEmpty r))) 0
                 (catComms colorBy nodes sortedNM),
               catComms colorBy nodes sortedNM)

/-- The inputs of one `handleCommunities` run (props and option state read
by it). -/
structure CommInput where
  colorBy : String
  sequentialPaletteName : String
  isReversed : Bool
  scaleType : String
  nodes : List BuiltNode
deriving DecidableEq

/-- The body of `handleCommunities` (inside the re-entrancy guard): PTU
palette first, then the `new_PTU` / numeric / categorical three-way branch,
publishing the batched state. -/
def handleCommunitiesBody (ext : Ext) (inp : CommInput) : JSResult CommResult :=
  bindJS (buildPTUPal ext inp.nodes) (fun ptuPal =>
    if inp.colorBy = "new_PTU" then
      .ok { ptuPal := ptuPal
            palette := .byValue ptuPal
            communities := ptuPal.map (·.1)
            visibleComms := ptuPal.map (·.1)
            numericPaletteState := none
            isNumeric := false }
    else if classifyNumeric inp.colorBy inp.nodes then
      bindJS (buildNumeric ext inp.sequentialPaletteName inp.isReversed inp.scaleType
          (numericPairs inp.colorBy inp.nodes)) (fun pm =>
        .ok { ptuPal := ptuPal
              palette := .byNode pm.1
              communities := []
              visibleComms := []
              numericPaletteState := pm.2
              isNumeric := true })
    else
      bindJS (buildCategorical ext inp.colorBy inp.nodes) (fun pc =>
        .ok { ptuPal := ptuPal
              palette := .byValue pc.1
              communities := pc.2
              visibleComms := pc.2
              numericPaletteState := none
              isNumeric := false }))

/-- `handleCommunities` with its re-entrancy guard: when the guard is
already `Running` the call is a no-op (`.ok none`, guard untouched);
otherwise the body runs inside `try {} finally { running = false }`, so the
guard is `Idle` afterwards even when the body raises.  Returns the call's
outcome and the final guard state. -/
def handleCommunities (ext : Ext) (inp : CommInput) (running : Bool) :
    JSResult (Option CommResult) × Bool :=
  if running then (.ok none, running)
  else
    match handleCommunitiesBody ext inp with
    | .ok r => (.ok (some r), false)
    | .thrown m => (.thrown m, false)

/-! ### The per-node color decision (`nodeReducer`) -/

/-- Palette lookup as the reducer performs it: node-keyed in numeric mode,
value-keyed otherwise; a missing key reads `undefined` (`none`). -/
def lookupPalette : PaletteOut → String → JSValue → Option String
  | .byNode m, node, _ => m.lookup node
  | .byValue m, _, v => m.lookup v

/-- The color component of the `nodeReducer`:
`isNumeric ? palette[node] || data.color : (data[colorBy] != null ? palette[data[colorBy]] : data.color)`.
`v` is the node's `colorBy` attribute, `dataColor` its own `color`
attribute (`none` = `undefined`; the built nodes carry no `color`).
A `none` result means the reducer emits an undefined color. -/
def nodeReducerColor (isNumeric : Bool) (pal : PaletteOut) (node : String)
    (v : JSValue) (dataColor : Option String) : Option String :=
  if isNumeric then
    match lookupPalette pal node v with
    | some c => if c = "" then dataColor else some c
    | none => dataColor
  else
    if v ≠ .null ∧ v ≠ .undef then lookupPalette pal node v else dataColor

/-! ### Visibility effect -/

/-- One run of the show/hide effect: it returns early (leaving every
`hidden` flag as it was) when the palette is still empty or numeric
coloring is active; otherwise it rewrites each graph node's flag to
`v != null && !visibleComms.has(v)` (ids not in the graph keep their
flag). -/
def applyVisibility (paletteNonEmpty : Bool) (isNumeric : Bool)
    (visibleComms : List JSValue) (colorBy : String) (nodes : List BuiltNode)
    (hidden : String → Bool) : String → Bool :=
  if paletteNonEmpty = false then hidden
  else if isNumeric then hidden
  else fun id =>
    match nodes.find? (fun m => m.id == id) with
    | some n =>
        let v := n.getAttr colorBy
        !(v == JSValue.null) && !(v == JSValue.undef) && !(decide (v ∈ visibleComms))
    | none => hidden id

/-! ### Edge materialization policy -/

/-- `getNodeAttribute` by id on the built node list (graphology would throw
for an unknown id; every id this flow passes in is a graph node). -/
def nodeAttrById (nodes : List BuiltNode) (id : String) (k : String) : JSValue :=
  match nodes.find? (fun m => m.id == id) with
  | some n => n.getAttr k
  | none => JSValue.undef

/-- `updateEdgesForHighlight`: clear all edges, then re-add every known edge
touching the given node (each add individually try/catch-guarded). -/
def updateEdgesForHighlight (ids : List String) (allEdges : List EdgeRow)
    (node : String) : List (String × String) :=
  allEdges.foldl
    (fun g e => if e.source = node ∨ e.target = node then addEdgeTry ids g e.source e.target else g) []

/-- The community-highlight branch: clear, then re-add every edge whose
source's or target's `colorBy` value is in the highlighted set. -/
def materializeComms (ids : List String) (nodes : List BuiltNode) (colorBy : String)
    (hComms : List JSValue) (allEdges : List EdgeRow) : List (String × String) :=
  allEdges.foldl
    (fun g e =>
      if nodeAttrById nodes e.source colorBy ∈ hComms ∨ nodeAttrById nodes e.target colorBy ∈ hComms then
        addEdgeTry ids g e.source e.target
      else g) []

/-- One run of the dynamic-edge-loading effect, as a function from the
currently materialized edge set to the next one.  Outside the
`edgeMode === 'none' && enableDynamicEdges` configuration it leaves the set
alone; with no selection and no highlighted community it clears; a selected
node wins over community highlights.  (A JS quirk: a selected node with the
empty-string id would read as "no selection"; node ids here are non-empty.) -/
def dynamicEdgesEffect (edgeMode : String) (enableDynamicEdges : Bool)
    (highlightedNode : Option String) (highlightedComms : List JSValue)
    (colorBy : String) (nodes : List BuiltNode) (allEdges : List EdgeRow)
    (current : List (String × String)) : List (String × String) :=
  if edgeMode ≠ "none" ∨ enableDynamicEdges = false then current
  else
    match highlightedNode with
    | some n => updateEdgesForHighlight (nodes.map (·.id)) allEdges n
    | none =>
        if highlightedComms = [] then []
        else materializeComms (nodes.map (·.id)) nodes colorBy highlightedComms allEdges

/-! ### The network-ready notification -/

/-- The two refs driving the one-shot notification:
`networkReadyCalledRef` and `isInitialLoadRef`. -/
structure ReadyState where
  networkReadyCalled : Bool
  isInitialLoad : Bool
deriving DecidableEq

/-- An event seen by the notification machinery: a change of the edge or
metadata rows (the reset effect), or a palette publication carrying the
number of palette keys. -/
inductive ReadyEv where
  | dataChange
  | palettePublish (size : ℕ)
deriving DecidableEq

/-- One step of the notification state machine.  `dataChange` resets both
refs.  A palette publication runs the `[palette]` effect: when this is
still the initial load and the palette is non-empty it clears
`isInitialLoad` and calls `callNetworkReady`, which fires the callback only
if it has not fired since the last reset (the `setTimeout` deferrals only
delay the call; the sigma instance exists whenever a non-empty palette was
published).  Returns the new state and whether `onNetworkReady` fired. -/
def readyStep : ReadyState → ReadyEv → ReadyState × Bool
  | _, .dataChange => ({ networkReadyCalled := false, isInitialLoad := true }, false)
  | s, .palettePublish n =>
      if s.isInitialLoad ∧ 0 < n then
        if s.networkReadyCalled then ({ s with isInitialLoad := false }, false)
        else ({ networkReadyCalled := true, isInitialLoad := false }, true)
      else (s, false)

/-- Run a list of events, counting how many times the callback fired. -/
def runReady (s : ReadyState) : List ReadyEv → ReadyState × ℕ
  | [] => (s, 0)
  | ev :: evs =>
      let p := readyStep s ev
      let q := runReady p.1 evs
      (q.1, (if p.2 then 1 else 0) + q.2)

/-! ### Helper lemmas -/

theorem mem_foldl_dedup {α : Type} [DecidableEq α] (l : List α) (acc : List α) (x : α) :
    x ∈ l.foldl (fun a y => if y ∈ a then a else a ++ [y]) acc ↔ x ∈ acc ∨ x ∈ l := by
  induction l generalizing acc with
  | nil => simp
  | cons y ys ih =>
      simp only [List.foldl_cons]
      by_cases hy : y ∈ acc
      · rw [if_pos hy, ih]
        simp only [List.mem_cons]
        constructor
        · rintro (h | h)
          · exact Or.inl h
          · exact Or.inr (Or.inr h)
        · rintro (h | rfl | h)
          · exact Or.inl h
          · exact Or.inl hy
          · exact Or.inr h
      · rw [if_neg hy, ih]
        simp only [List.mem_append, List.mem_cons, List.mem_singleton]
        tauto

theorem mem_dedupKeep {α : Type} [DecidableEq α] (l : List α) (x : α) :
    x ∈ dedupKeep l ↔ x ∈ l := by
  unfold dedupKeep
  rw [mem_foldl_dedup]
  simp

theorem length_filter_eq_iff {α : Type} (p : α → Bool) (l : List α) :
    (l.filter p).length = l.length ↔ ∀ a ∈ l, p a = true := by
  induction l with
  | nil => simp
  | cons a as ih =>
      by_cases hp : p a
      · simp [List.filter_cons, hp, ih]
      · simp only [List.filter_cons, hp, Bool.false_eq_true, if_false, List.length_cons]
        constructor
        · intro h
          exfalso
          have hle := List.length_filter_le p as
          omega
        · intro h
          exact absurd (h a (by simp)) (by simp [hp])

/-! ### C1 — attribute classifier -/

theorem classifyNumeric_eq_true_iff (colorBy : String) (nodes : List BuiltNode) :
    classifyNumeric colorBy nodes = true ↔
      ∀ n ∈ nodes, ((n.getAttr colorBy).toNumber).isNaN = false := by
  unfold classifyNumeric numericPairs
  rw [beq_iff_eq]
  rw [show nodes.length = (nodes.map (fun n => (n.id, (n.getAttr colorBy).toNumber))).length by simp]
  rw [length_filter_eq_iff]
  simp

/-- C1 (amended): the classifier reports Numeric iff every node's ColorKey
value coerces under JS `Number()` to a non-NaN value; an absent value
coerces to NaN and forces Categorical, but the claim's "finite" is wrong:
±Infinity (and `null` or the empty string, which coerce to 0) also count
as numeric. -/
theorem classifier_reports_numeric_iff_no_nan (colorBy : String) (nodes : List BuiltNode) :
    classifyNumeric colorBy nodes = true ↔
      ∀ n ∈ nodes, ((n.getAttr colorBy).toNumber).isNaN = false :=
  classifyNumeric_eq_true_iff colorBy nodes

/-- A node whose `score` attribute is the number `Infinity`. -/
def infScoreNode : BuiltNode :=
  { id := "a", attrs := [("score", .num .posInf)], x := .finite 0, y := .finite 0 }

/-- C1 counterexample: on a one-node row set whose `score` value is
`Infinity`, the classifier reports Numeric although the value does not
parse as a finite number, refuting the claimed "Numeric iff every value
parses as a finite number". -/
theorem classifier_infinity_counterexample :
    classifyNumeric "score" [infScoreNode] = true ∧
      (infScoreNode.getAttr "score").toNumber.isFiniteJS = false := by
  decide

/-! ### C6 / C8 — visibility effect -/

/-- C6 (amended): in Numeric mode the visibility pass leaves every `hidden`
flag exactly as it was — visibility toggles are accepted but have no
rendering effect; consequently hidden flags left over from a previous
Categorical state persist rather than being cleared. -/
theorem numeric_visibility_pass_is_noop (pn : Bool) (vc : List JSValue) (cb : String)
    (nodes : List BuiltNode) (hidden : String → Bool) :
    applyVisibility pn true vc cb nodes hidden = hidden := by
  unfold applyVisibility
  cases pn <;> simp

/-- A one-node graph colored categorically by `group`. -/
def leftoverNodes : List BuiltNode :=
  [{ id := "a", attrs := [("group", .str "g1")], x := .finite 0, y := .finite 0 }]

/-- C6 counterexample: hide node `a` in Categorical mode (its group toggled
off), then switch to Numeric mode — the node is still hidden, refuting
"every node remains shown ... including state left over from a previous
Categorical mode". -/
theorem numeric_visibility_leftover_counterexample :
    applyVisibility true true [] "group" leftoverNodes
      (applyVisibility true false [] "group" leftoverNodes (fun _ => false)) "a" = true := by
  decide

/-- C8: in Categorical mode the visibility pass sets a node's hidden flag
iff its ColorKey value is non-null/non-undefined and outside the visible
set; in particular a node with a null or undefined value is never hidden,
whatever the visibility state. -/
theorem categorical_missing_valued_nodes_stay_visible (vc : List JSValue) (cb : String)
    (nodes : List BuiltNode) (hidden : String → Bool) (id : String) (n : BuiltNode)
    (hfind : nodes.find? (fun m => m.id == id) = some n) :
    (applyVisibility true false vc cb nodes hidden id = true ↔
      ((n.getAttr cb ≠ .null ∧ n.getAttr cb ≠ .undef) ∧ n.getAttr cb ∉ vc))
    ∧ ((n.getAttr cb = .null ∨ n.getAttr cb = .undef) →
        applyVisibility true false vc cb nodes hidden id = false) := by
  have hv : applyVisibility true false vc cb nodes hidden id =
      (!(n.getAttr cb == JSValue.null) && !(n.getAttr cb == JSValue.undef)
        && !(decide (n.getAttr cb ∈ vc))) := by
    unfold applyVisibility
    simp [hfind]
  constructor
  · rw [hv]
    simp [and_assoc]
  · intro hnull
    rw [hv]
    rcases hnull with h | h <;> simp [h]

/-- C8 witness: concrete instance — the metadata-less endpoint of a
one-edge graph has an undefined `group` value and is not hidden even when
every community is toggled off. -/
theorem categorical_missing_valued_nodes_stay_visible_witness :
    leftoverNodes.find? (fun m => m.id == "a") = some
        { id := "a", attrs := [("group", .str "g1")], x := .finite 0, y := .finite 0 } ∧
      applyVisibility true false [] "cluster" leftoverNodes (fun _ => false) "a" = false := by
  refine ⟨by decide, ?_⟩
  exact (categorical_missing_valued_nodes_stay_visible [] "cluster" leftoverNodes (fun _ => false) "a"
    { id := "a", attrs := [("group", .str "g1")], x := .finite 0, y := .finite 0 }
    (by decide)).2 (by decide)

/-! ### C10 — re-entrancy guard -/

/-- C10: a top-level `handleCommunities` invocation always leaves the
re-entrancy guard back in the Idle state — also when the body raises,
thanks to the `finally` — so a subsequent invocation is never skipped as a
nested call. -/
theorem handleCommunities_guard_returns_idle (ext ext2 : Ext) (inp inp2 : CommInput) :
    (handleCommunities ext inp false).2 = false ∧
      isSkipResult (handleCommunities ext2 inp2 (handleCommunities ext inp false).2).1 = false := by
  have h : (handleCommunities ext inp false).2 = false := by
    unfold handleCommunities
    simp only [Bool.false_eq_true, if_false]
    cases handleCommunitiesBody ext inp <;> simp
  refine ⟨h, ?_⟩
  rw [h]
  unfold handleCommunities
  simp only [Bool.false_eq_true, if_false]
  cases handleCommunitiesBody ext2 inp2 <;> simp [isSkipResult]

/-! ### C4 — one-shot network-ready notification -/

theorem runReady_after_done (c : Bool) (ps : List ℕ) :
    runReady { networkReadyCalled := c, isInitialLoad := false } (ps.map ReadyEv.palettePublish) =
      ({ networkReadyCalled := c, isInitialLoad := false }, 0) := by
  induction ps with
  | nil => rfl
  | cons p ps ih => simp [runReady, readyStep, ih]

theorem runReady_waiting (ps : List ℕ) :
    (runReady { networkReadyCalled := false, isInitialLoad := true }
        (ps.map ReadyEv.palettePublish)).2 =
      if ps.any (fun q => 0 < q) then 1 else 0 := by
  induction ps with
  | nil => simp [runReady]
  | cons p ps ih =>
      by_cases hp : 0 < p
      · simp [runReady, readyStep, hp, runReady_after_done]
      · simp [runReady, readyStep, hp, ih]

theorem runReady_zeros (qs : List ℕ) (hq : ∀ q ∈ qs, q = 0) :
    (runReady { networkReadyCalled := false, isInitialLoad := true }
        (qs.map ReadyEv.palettePublish)).1 =
      { networkReadyCalled := false, isInitialLoad := true } := by
  induction qs with
  | nil => rfl
  | cons q qs ih =>
      have hq0 : q = 0 := hq q (by simp)
      subst hq0
      simp only [List.map_cons, runReady, readyStep]
      simpa using ih (fun q hq' => hq q (by simp [hq']))

/-- C4: starting from any ref state, a data-change reset followed by any
sequence of palette publications fires `onNetworkReady` exactly once if
some publication is non-empty (zero times otherwise), and the firing
happens exactly at the first non-empty publication; later publications of
the same load (recolorings from ColorKey changes) never fire it again. -/
theorem network_ready_fires_once_per_load (s : ReadyState) (ps : List ℕ) :
    ((runReady (readyStep s .dataChange).1 (ps.map ReadyEv.palettePublish)).2 =
        if ps.any (fun q => 0 < q) then 1 else 0)
    ∧ (∀ qs p rs, ps = qs ++ p :: rs → (∀ q ∈ qs, q = 0) → 0 < p →
        (readyStep (runReady (readyStep s .dataChange).1 (qs.map ReadyEv.palettePublish)).1
          (ReadyEv.palettePublish p)).2 = true) := by
  have hreset : (readyStep s .dataChange).1 =
      { networkReadyCalled := false, isInitialLoad := true } := rfl
  constructor
  · rw [hreset]
    exact runReady_waiting ps
  · intro qs p rs _ hq hp
    rw [hreset, runReady_zeros qs hq]
    simp [readyStep, hp]

/-- C4 witness: after a reset, publications of sizes 0, 3, 2 fire exactly
once, and the firing happens at the size-3 publication (the first
non-empty one). -/
theorem network_ready_fires_once_witness :
    ((runReady (readyStep { networkReadyCalled := true, isInitialLoad := false } .dataChange).1
        ([0, 3, 2].map ReadyEv.palettePublish)).2 =
      if [0, 3, 2].any (fun q => 0 < q) then 1 else 0)
    ∧ (readyStep (runReady (readyStep { networkReadyCalled := true, isInitialLoad := false }
          .dataChange).1 ([0].map ReadyEv.palettePublish)).1 (ReadyEv.palettePublish 3)).2 = true :=
  ⟨(network_ready_fires_once_per_load { networkReadyCalled := true, isInitialLoad := false }
      [0, 3, 2]).1,
   (network_ready_fires_once_per_load { networkReadyCalled := true, isInitialLoad := false }
      [0, 3, 2]).2 [0] 3 [2] rfl (by decide) (by decide)⟩

/-! ### C3 — edge materialization under a selected node -/

theorem mem_addEdgeTry (ids : List String) (g : List (String × String)) (s t : String)
    (p : String × String) :
    p ∈ addEdgeTry ids g s t ↔ p ∈ g ∨ (p = (s, t) ∧ s ∈ ids ∧ t ∈ ids) := by
  unfold addEdgeTry
  by_cases h : s ∈ ids ∧ t ∈ ids ∧ (s, t) ∉ g
  · rw [if_pos h]
    simp only [List.mem_append, List.mem_singleton]
    constructor
    · rintro (hg | rfl)
      · exact Or.inl hg
      · exact Or.inr ⟨rfl, h.1, h.2.1⟩
    · rintro (hg | ⟨rfl, -, -⟩)
      · exact Or.inl hg
      · exact Or.inr rfl
  · rw [if_neg h]
    constructor
    · exact Or.inl
    · rintro (hg | ⟨rfl, hs, ht⟩)
      · exact hg
      · by_cases hmem : (s, t) ∈ g
        · exact hmem
        · exact absurd ⟨hs, ht, hmem⟩ h

theorem mem_foldl_touching (ids : List String) (node : String) (allEdges : List EdgeRow)
    (g : List (String × String)) (p : String × String) :
    (p ∈ allEdges.foldl
        (fun g e => if e.source = node ∨ e.target = node then addEdgeTry ids g e.source e.target else g)
        g) ↔
      p ∈ g ∨ ∃ e ∈ allEdges, (e.source = node ∨ e.target = node) ∧ p = (e.source, e.target)
        ∧ e.source ∈ ids ∧ e.target ∈ ids := by
  induction allEdges generalizing g with
  | nil => simp
  | cons e es ih =>
      simp only [List.foldl_cons, List.exists_mem_cons_iff]
      by_cases he : e.source = node ∨ e.target = node
      · rw [if_pos he, ih, mem_addEdgeTry]
        constructor
        · rintro ((hg | ⟨rfl, hs, ht⟩) | hrest)
          · exact Or.inl hg
          · exact Or.inr (Or.inl ⟨he, rfl, hs, ht⟩)
          · exact Or.inr (Or.inr hrest)
        · rintro (hg | ⟨-, rfl, hs, ht⟩ | hrest)
          · exact Or.inl (Or.inl hg)
          · exact Or.inl (Or.inr ⟨rfl, hs, ht⟩)
          · exact Or.inr hrest
      · rw [if_neg he, ih]
        constructor
        · rintro (hg | hrest)
          · exact Or.inl hg
          · exact Or.inr (Or.inr hrest)
        · rintro (hg | ⟨ht, -⟩ | hrest)
          · exact Or.inl hg
          · exact absurd ht he
          · exact Or.inr hrest

/-- C3: with `EdgeMode = none`, dynamic edges enabled and a selected node,
one run of the dynamic-edge effect materializes exactly the edges touching
the selected node — whatever community highlight is active and whatever
edge set was materialized before — and the result coincides with a full
recomputation from an empty set (switching the selection from A to B fully
replaces the set). -/
theorem selection_materializes_touching_edges (hComms : List JSValue) (cb : String)
    (nodes : List BuiltNode) (allEdges : List EdgeRow) (cur : List (String × String))
    (n : String) (p : String × String)
    (hclosed : ∀ e ∈ allEdges, e.source ∈ nodes.map (·.id) ∧ e.target ∈ nodes.map (·.id)) :
    ((p ∈ dynamicEdgesEffect "none" true (some n) hComms cb nodes allEdges cur) ↔
      ((∃ e ∈ allEdges, p = (e.source, e.target)) ∧ (p.1 = n ∨ p.2 = n)))
    ∧ dynamicEdgesEffect "none" true (some n) hComms cb nodes allEdges cur =
        dynamicEdgesEffect "none" true (some n) hComms cb nodes allEdges [] := by
  have heff : ∀ c : List (String × String),
      dynamicEdgesEffect "none" true (some n) hComms cb nodes allEdges c =
        updateEdgesForHighlight (nodes.map (·.id)) allEdges n := by
    intro c
    unfold dynamicEdgesEffect
    simp
  refine ⟨?_, by rw [heff, heff]⟩
  rw [heff]
  unfold updateEdgesForHighlight
  rw [mem_foldl_touching]
  simp only [List.not_mem_nil, false_or]
  constructor
  · rintro ⟨e, he, htouch, rfl, -, -⟩
    exact ⟨⟨e, he, rfl⟩, by simpa using htouch⟩
  · rintro ⟨⟨e, he, rfl⟩, htouch⟩
    exact ⟨e, he, by simpa using htouch, rfl, (hclosed e he).1, (hclosed e he).2⟩

/-- Concrete fixture: two edges on three nodes. -/
def edgesW : List EdgeRow :=
  [{ source := "n1", target := "n2", weight := .undef },
   { source := "n2", target := "n3", weight := .undef }]

def nodesW : List BuiltNode := buildNodes edgesW [] (fun _ => (0, 0))

/-- C3 witness: selecting `n1` over a stale materialized set yields exactly
the membership characterization and the replacement equation at a concrete
input. -/
theorem selection_materializes_touching_edges_witness :
    ((("n1", "n2") ∈ dynamicEdgesEffect "none" true (some "n1") [] "group" nodesW edgesW
        [("n2", "n3")]) ↔
      ((∃ e ∈ edgesW, ("n1", "n2") = (e.source, e.target)) ∧ ("n1" = "n1" ∨ "n2" = "n1")))
    ∧ dynamicEdgesEffect "none" true (some "n1") [] "group" nodesW edgesW [("n2", "n3")] =
        dynamicEdgesEffect "none" true (some "n1") [] "group" nodesW edgesW [] :=
  selection_materializes_touching_edges [] "group" nodesW edgesW [("n2", "n3")] "n1"
    ("n1", "n2") (by decide)

/-! ### C9 — node set of the built graph -/

theorem lookup_eq_none_of_keys_ne {β : Type} (l : List (String × β)) (id : String)
    (h : ∀ p ∈ l, p.1 ≠ id) : l.lookup id = none := by
  induction l with
  | nil => rfl
  | cons p ps ih =>
      have hp : p.1 ≠ id := h p (by simp)
      have : (id == p.1) = false := by
        simp only [beq_eq_false_iff_ne]
        exact fun hh => hp hh.symm
      simp only [List.lookup, this]
      exact ih (fun q hq => h q (by simp [hq]))

theorem buildMetaMap_keys_ne (rows : List MetaRow) (id : String) (h : ∀ r ∈ rows, r.id ≠ id) :
    ∀ p ∈ buildMetaMap rows, p.1 ≠ id := by
  unfold buildMetaMap
  suffices haux : ∀ acc : List (String × List (String × JSValue)), (∀ p ∈ acc, p.1 ≠ id) →
      ∀ p ∈ rows.foldl
        (fun m r => if r.id = "" then m else m.filter (fun q => q.1 ≠ r.id) ++ [(r.id, r.attrs)])
        acc, p.1 ≠ id by
    exact haux [] (by simp)
  induction rows with
  | nil => intro acc hacc; simpa using hacc
  | cons r rs ih =>
      intro acc hacc
      simp only [List.foldl_cons]
      apply ih (fun r' hr' => h r' (by simp [hr']))
      by_cases hr : r.id = ""
      · rwa [if_pos hr]
      · rw [if_neg hr]
        intro p hp
        rcases List.mem_append.mp hp with hp | hp
        · exact hacc p (List.mem_of_mem_filter hp)
        · rcases List.mem_singleton.mp hp with rfl
          exact h r (by simp)

/-- C9: the node set of the built graph is exactly the ids occurring as a
source or target of some edge row — so a metadata row whose id occurs in no
edge row produces no node — and an edge endpoint with no metadata row
becomes a node with an empty attribute record and the random fallback
coordinates. -/
theorem node_set_is_exactly_edge_endpoints (e : List EdgeRow) (m : List MetaRow)
    (em : String) (rand : String → ℚ × ℚ) :
    (∀ id, (∃ n ∈ (loadFromEdgeList e m em rand).nodes, n.id = id) ↔
        ∃ row ∈ e, row.source = id ∨ row.target = id)
    ∧ (∀ id, (∀ r ∈ m, r.id ≠ id) → ∀ n ∈ (loadFromEdgeList e m em rand).nodes, n.id = id →
        n.attrs = [] ∧ n.x = .finite ((rand id).1 * 10) ∧ n.y = .finite ((rand id).2 * 10)) := by
  have hnodes : (loadFromEdgeList e m em rand).nodes = buildNodes e m rand := rfl
  have hmem : ∀ id, id ∈ nodeIds e ↔ ∃ row ∈ e, row.source = id ∨ row.target = id := by
    intro id
    unfold nodeIds
    rw [mem_dedupKeep]
    constructor
    · intro h
      rcases List.mem_flatten.mp h with ⟨l, hl, hid⟩
      rcases List.mem_map.mp hl with ⟨row, hrow, rfl⟩
      rcases List.mem_cons.mp hid with h1 | h1
      · exact ⟨row, hrow, Or.inl h1.symm⟩
      · exact ⟨row, hrow, Or.inr (List.mem_singleton.mp h1).symm⟩
    · rintro ⟨row, hrow, h | h⟩
      · exact List.mem_flatten.mpr
          ⟨[row.source, row.target], List.mem_map_of_mem _ hrow, by simp [h]⟩
      · exact List.mem_flatten.mpr
          ⟨[row.source, row.target], List.mem_map_of_mem _ hrow, by simp [h]⟩
  constructor
  · intro id
    rw [hnodes]
    unfold buildNodes
    rw [← hmem id]
    constructor
    · rintro ⟨n, hn, rfl⟩
      rcases List.mem_map.mp hn with ⟨i, hi, rfl⟩
      exact hi
    · intro hid
      exact ⟨_, List.mem_map.mpr ⟨id, hid, rfl⟩, rfl⟩
  · intro id hnometa n hn hid
    rw [hnodes] at hn
    unfold buildNodes at hn
    rcases List.mem_map.mp hn with ⟨i, -, hni⟩
    have hii : i = id := by
      rw [← hni] at hid
      exact hid
    subst hii
    have hlk : (buildMetaMap m).lookup i = none :=
      lookup_eq_none_of_keys_ne _ _ (buildMetaMap_keys_ne m i hnometa)
    rw [← hni]
    simp [hlk, getAttrList, JSValue.parseFloatJS, JSNum.isNaN]

/-- C9 witness: on one edge `a → b` with metadata only for `a`, node `b`
exists, and every node named `b` carries the empty record and the random
fallback coordinates. -/
theorem node_set_is_exactly_edge_endpoints_witness :
    (∃ n ∈ (loadFromEdgeList [{ source := "a", target := "b", weight := .undef }]
        [{ id := "a", attrs := [("group", .str "g1")] }] "none" (fun _ => (1/2, 1/3))).nodes,
      n.id = "b")
    ∧ (∀ n ∈ (loadFromEdgeList [{ source := "a", target := "b", weight := .undef }]
        [{ id := "a", attrs := [("group", .str "g1")] }] "none" (fun _ => (1/2, 1/3))).nodes,
        n.id = "b" → n.attrs = [] ∧ n.x = .finite ((1/2 : ℚ) * 10) ∧ n.y = .finite ((1/3 : ℚ) * 10)) :=
  ⟨((node_set_is_exactly_edge_endpoints _ _ "none" _).1 "b").mpr (by decide),
   (node_set_is_exactly_edge_endpoints _ _ "none" _).2 "b" (by decide)⟩

/-! ### C7 — numeric gradient-stop mapping -/

theorem applyScale_linear_finite (ext : Ext) (a b x : ℚ) (hne : b - a ≠ 0) :
    applyScale ext "linear" (.finite a) (.finite b) (.finite x) = .finite ((x - a) / (b - a)) := by
  unfold applyScale
  rw [if_neg (by decide), if_neg (by decide), if_neg (by decide)]
  unfold d3LinearNormalize
  simp only [JSNum.sub, JSNum.div]
  rw [if_neg hne, if_neg hne]

theorem numericStopIndex_linear_finite (ext : Ext) (a b x : ℚ) (hab : a < b) :
    numericStopIndex ext "linear" (.finite a) (.finite b) (.finite x) =
      .finite ((⌊max 0 (min 1 ((x - a) / (b - a))) * ((numGradientSteps : ℚ) - 1)⌋ : ℤ) : ℚ) := by
  have hne : b - a ≠ 0 := sub_ne_zero.mpr (ne_of_gt hab)
  have hcond : ¬ ((JSNum.finite b).sub (.finite a) = .finite 0) := by
    simp only [JSNum.sub, JSNum.finite.injEq]
    exact hne
  unfold numericStopIndex
  rw [if_neg hcond, applyScale_linear_finite ext a b x hne]
  rfl

/-- C7: the numeric stop assignment maps every node of a degenerate domain
(`range === 0`) to the midpoint stop index `⌊100 / 2⌋ = 50`, and under the
linear scale with `min < max` the assigned stop index
`⌊clamp(scaled) · (K − 1)⌋` is non-decreasing in the node's value. -/
theorem gradient_stop_midpoint_and_monotone (ext : Ext) :
    (∀ st minV maxV v, maxV.sub minV = .finite 0 →
        numericStopIndex ext st minV maxV v = .finite 50)
    ∧ (∀ a b x y : ℚ, a < b → x ≤ y → ∃ i j : ℤ,
        numericStopIndex ext "linear" (.finite a) (.finite b) (.finite x) = .finite (i : ℚ)
        ∧ numericStopIndex ext "linear" (.finite a) (.finite b) (.finite y) = .finite (j : ℚ)
        ∧ i ≤ j) := by
  constructor
  · intro st minV maxV v h
    unfold numericStopIndex
    rw [if_pos h]
    show JSNum.finite ((⌊(numGradientSteps : ℚ) / 2⌋ : ℤ) : ℚ) = .finite 50
    norm_num [numGradientSteps]
  · intro a b x y hab hxy
    refine ⟨⌊max 0 (min 1 ((x - a) / (b - a))) * ((numGradientSteps : ℚ) - 1)⌋,
            ⌊max 0 (min 1 ((y - a) / (b - a))) * ((numGradientSteps : ℚ) - 1)⌋,
            numericStopIndex_linear_finite ext a b x hab,
            numericStopIndex_linear_finite ext a b y hab, ?_⟩
    apply Int.floor_le_floor
    apply mul_le_mul_of_nonneg_right
    · refine max_le_max (le_refl 0) (min_le_min (le_refl 1) ?_)
      have hd : 0 < b - a := sub_pos.mpr hab
      exact (div_le_div_iff_of_pos_right hd).mpr (sub_le_sub_right hxy a)
    · norm_num [numGradientSteps]

/-- A concrete oracle bundle with inert external scales. -/
def extTrivial : Ext :=
  { iwanthue := fun _ => .ok []
    getSequentialColors := fun _ _ => .ok []
    rng := fun _ => 0
    logScale := fun _ _ _ => .finite 0
    sqrtScale := fun _ _ _ => .finite 0 }

/-- C7 witness: degenerate domain `[2, 2]` maps to stop 50; values 3 ≤ 7 in
domain `[1, 10]` get non-decreasing stop indices. -/
theorem gradient_stop_midpoint_and_monotone_witness :
    (numericStopIndex extTrivial "linear" (.finite 2) (.finite 2) (.finite 2) = .finite 50)
    ∧ ∃ i j : ℤ,
        numericStopIndex extTrivial "linear" (.finite 1) (.finite 10) (.finite 3) = .finite (i : ℚ)
        ∧ numericStopIndex extTrivial "linear" (.finite 1) (.finite 10) (.finite 7) = .finite (j : ℚ)
        ∧ i ≤ j :=
  ⟨(gradient_stop_midpoint_and_monotone extTrivial).1 "linear" (.finite 2) (.finite 2) (.finite 2)
      (by norm_num [JSNum.sub]),
   (gradient_stop_midpoint_and_monotone extTrivial).2 1 10 3 7 (by norm_num) (by norm_num)⟩

/-! ### Palette-builder lemmas -/

theorem lookup_zipIdxColor (f : ℕ → JSValue → String) (l : List JSValue) (v : JSValue)
    (hv : v ∈ l) : ∀ i, ∃ j, (zipIdxColor f i l).lookup v = some (f j v) := by
  induction l with
  | nil => cases hv
  | cons w ws ih =>
      intro i
      by_cases hw : v = w
      · subst hw
        exact ⟨i, by simp [zipIdxColor, List.lookup]⟩
      · rcases List.mem_cons.mp hv with h | h
        · exact absurd h hw
        · rcases ih h (i + 1) with ⟨j, hj⟩
          refine ⟨j, ?_⟩
          have hbeq : (v == w) = false := beq_eq_false_iff_ne.mpr hw
          simp [zipIdxColor, List.lookup, hbeq, hj]

theorem zipIdxColor_colors (f : ℕ → JSValue → String) (P : String → Prop)
    (hP : ∀ j v, P (f j v)) (l : List JSValue) :
    ∀ i, ∀ pc ∈ zipIdxColor f i l, P pc.2 := by
  induction l with
  | nil => intro i pc hpc; cases hpc
  | cons w ws ih =>
      intro i pc hpc
      rcases List.mem_cons.mp hpc with h | h
      · rw [h]; exact hP i w
      · exact ih (i + 1) pc h

theorem mem_insertByStr (x y : JSValue) (l : List JSValue) :
    y ∈ insertByStr x l ↔ y = x ∨ y ∈ l := by
  induction l with
  | nil => simp [insertByStr]
  | cons z zs ih =>
      unfold insertByStr
      by_cases h : jsStrOf x ≤ jsStrOf z
      · rw [if_pos h]
        simp [List.mem_cons]
      · rw [if_neg h]
        simp only [List.mem_cons, ih]
        tauto

theorem mem_sortByStr (x : JSValue) (l : List JSValue) : x ∈ sortByStr l ↔ x ∈ l := by
  induction l with
  | nil => simp [sortByStr]
  | cons z zs ih => simp [sortByStr, mem_insertByStr, ih]

theorem sortJSByLocale_ok_mem (l r : List JSValue) (h : sortJSByLocale l = .ok r) (x : JSValue) :
    x ∈ r ↔ x ∈ l := by
  unfold sortJSByLocale at h
  by_cases h1 : l.length ≤ 1
  · rw [if_pos h1] at h
    cases h
    exact Iff.rfl
  · rw [if_neg h1] at h
    by_cases h2 : allStringsB l = true
    · rw [if_pos h2] at h
      cases h
      exact mem_sortByStr x l
    · rw [if_neg h2] at h
      cases h

theorem mem_ptuValues (nodes : List BuiltNode) (n : BuiltNode) (hn : n ∈ nodes) :
    normPTU (n.getAttr "new_PTU") ∈ ptuValues nodes := by
  unfold ptuValues
  rw [mem_dedupKeep]
  exact List.mem_map_of_mem _ hn

theorem mem_commValues (colorBy : String) (nodes : List BuiltNode) (v : JSValue) :
    v ∈ commValues colorBy nodes ↔
      (v ≠ .null ∧ v ≠ .undef) ∧ ∃ n ∈ nodes, n.getAttr colorBy = v := by
  unfold commValues
  rw [mem_dedupKeep]
  rw [List.mem_filter]
  simp only [List.mem_map, decide_eq_true_eq]
  tauto

theorem buildPTUPal_ok (ext : Ext) (nodes : List BuiltNode) (pal : List (JSValue × String))
    (h : buildPTUPal ext nodes = .ok pal) :
    ∃ colors, pal = zipIdxColor (ptuEntryColor colors) 0 (ptuValues nodes) := by
  unfold buildPTUPal at h
  rcases hiw : ext.iwanthue (ptuValues nodes).length with l | _ | m <;> rw [hiw] at h
  · exact ⟨l, by cases h; rfl⟩
  · exact ⟨[], by cases h; rfl⟩
  · cases h

theorem buildPTUPal_not_thrown (ext : Ext) (nodes : List BuiltNode)
    (h : ∀ m, ext.iwanthue (ptuValues nodes).length ≠ .thrown m) :
    ∃ pal, buildPTUPal ext nodes = .ok pal := by
  unfold buildPTUPal
  rcases hiw : ext.iwanthue (ptuValues nodes).length with l | _ | m
  · exact ⟨_, rfl⟩
  · exact ⟨_, rfl⟩
  · exact absurd hiw (h m)

theorem mem_catComms (cb : String) (nodes : List BuiltNode) (sortedNM : List JSValue)
    (hs : sortJSByLocale ((commValues cb nodes).filter (fun v => v ≠ .str "")) = .ok sortedNM)
    (v : JSValue) : v ∈ catComms cb nodes sortedNM ↔ v ∈ commValues cb nodes := by
  unfold catComms
  rw [List.mem_append, sortJSByLocale_ok_mem _ _ hs v, List.mem_filter]
  by_cases hve : v = .str ""
  · subst hve
    by_cases hin : JSValue.str "" ∈ commValues cb nodes
    · simp [hin]
    · simp [hin]
  · have hd : (decide ¬v = JSValue.str "") = true := by simp [hve]
    simp only [hd, and_true]
    by_cases hin : JSValue.str "" ∈ commValues cb nodes
    · simp only [hin, if_true, List.mem_singleton]
      constructor
      · rintro (hv | rfl)
        · exact hv
        · exact absurd rfl hve
      · exact Or.inl
    · simp [hin]

theorem buildCategorical_ok (ext : Ext) (cb : String) (nodes : List BuiltNode)
    (pal : List (JSValue × String)) (comms : List JSValue)
    (h : buildCategorical ext cb nodes = .ok (pal, comms)) :
    (∃ colors, pal = zipIdxColor (catEntryColor colors) 0 comms)
    ∧ (∀ v, v ∈ comms ↔ v ∈ commValues cb nodes) := by
  unfold buildCategorical at h
  rcases hiw : ext.iwanthue (commValues cb nodes).length with l | _ | m <;> rw [hiw] at h
  case thrown => cases h
  all_goals
    rcases hs : sortJSByLocale ((commValues cb nodes).filter (fun v => v ≠ .str "")) with
      sortedNM | m2 <;> rw [hs] at h
  case ok.thrown => cases h
  case undef.thrown => cases h
  all_goals
    cases h
  all_goals
    exact ⟨⟨_, rfl⟩, mem_catComms cb nodes _ hs⟩

theorem assignColors_some (ext : Ext) (st : String) (minV maxV : JSNum) (colors : List String)
    (pairs : List (String × JSNum)) :
    assignColors ext st minV maxV (some colors) pairs =
      .ok (pairs.map (fun p =>
        (p.1, jsIndexGetD colors (numericStopIndex ext st minV maxV p.2) "#888"))) := by
  induction pairs with
  | nil => rfl
  | cons p ps ih =>
      rcases p with ⟨id, v⟩
      simp [assignColors, ih, bindJS]

theorem lookup_map_keyed {α : Type} (g : String × α → String) (pairs : List (String × α))
    (id : String) (hid : ∃ a, (id, a) ∈ pairs) :
    ∃ p, p ∈ pairs ∧ (pairs.map (fun q => (q.1, g q))).lookup id = some (g p) := by
  induction pairs with
  | nil =>
      rcases hid with ⟨a, ha⟩
      cases ha
  | cons q qs ih =>
      by_cases hq : q.1 = id
      · refine ⟨q, by simp, ?_⟩
        have hbeq : (id == q.1) = true := beq_iff_eq.mpr hq.symm
        simp [List.lookup, hbeq]
      · rcases hid with ⟨a, ha⟩
        rcases List.mem_cons.mp ha with h | h
        · exact absurd (by rw [← h]) hq
        · rcases ih ⟨a, h⟩ with ⟨p, hp, hl⟩
          refine ⟨p, List.mem_cons_of_mem _ hp, ?_⟩
          have hbeq : (id == q.1) = false := beq_eq_false_iff_ne.mpr (fun hh => hq hh.symm)
          simp [List.lookup, hbeq, hl]

theorem jsIndexGetD_mem (colors : List String) (i : JSNum) (d : String) :
    jsIndexGetD colors i d ∈ colors ∨ jsIndexGetD colors i d = d := by
  unfold jsIndexGetD
  rcases i with _ | _ | _ | q
  · exact Or.inr rfl
  · exact Or.inr rfl
  · exact Or.inr rfl
  · show (if 0 ≤ q ∧ q.den = 1 then (colors.get? q.num.toNat).getD d else d) ∈ colors ∨
      (if 0 ≤ q ∧ q.den = 1 then (colors.get? q.num.toNat).getD d else d) = d
    by_cases hc : 0 ≤ q ∧ q.den = 1
    · rw [if_pos hc]
      rcases hg : colors.get? q.num.toNat with _ | c
      · exact Or.inr rfl
      · exact Or.inl (List.get?_mem hg)
    · rw [if_neg hc]
      exact Or.inr rfl

theorem shuffleColors_nil (rng : ℕ → ℕ) : shuffleColors rng [] = [] := rfl

/-! ### C2 — defined colors after palette publication -/

theorem bindJS_ok_eq {α β : Type} (a : α) (f : α → JSResult β) : bindJS (.ok a) f = f a := rfl

theorem bindJS_thrown_eq {α β : Type} (m : String) (f : α → JSResult β) :
    bindJS (.thrown m) f = .thrown m := rfl

theorem normPTU_eq_self (v : JSValue) (h1 : v ≠ .null) (h2 : v ≠ .undef) : normPTU v = v := by
  unfold normPTU
  by_cases hve : v = .str ""
  · rw [if_neg]
    · exact hve.symm
    · rintro ⟨-, -, hne⟩
      exact hne hve
  · rw [if_pos ⟨h1, h2, hve⟩]

theorem mem_numericPairs_of_classified (colorBy : String) (nodes : List BuiltNode)
    (hnum : classifyNumeric colorBy nodes = true) (n : BuiltNode) (hn : n ∈ nodes) :
    (n.id, (n.getAttr colorBy).toNumber) ∈ numericPairs colorBy nodes := by
  unfold numericPairs
  refine List.mem_filter.mpr ⟨List.mem_map_of_mem _ hn, ?_⟩
  have hnotnan := (classifyNumeric_eq_true_iff colorBy nodes).mp hnum n hn
  simp [hnotnan]

theorem numericPairs_ne_nil (colorBy : String) (nodes : List BuiltNode)
    (hnum : classifyNumeric colorBy nodes = true) (n : BuiltNode) (hn : n ∈ nodes) :
    numericPairs colorBy nodes ≠ [] := by
  intro h0
  have hlen : (numericPairs colorBy nodes).length = nodes.length := by
    have h := hnum
    unfold classifyNumeric at h
    exact beq_iff_eq.mp h
  rw [h0] at hlen
  have hpos : 0 < nodes.length := List.length_pos_of_mem hn
  simp at hlen
  omega

theorem nodeReducerColor_byNode_some (m : List (String × String)) (node : String) (v : JSValue)
    (dataColor : Option String) (c : String) (hl : m.lookup node = some c) (hc : c ≠ "") :
    nodeReducerColor true (.byNode m) node v dataColor = some c := by
  unfold nodeReducerColor
  rw [if_pos rfl]
  show (match m.lookup node with
    | some c => if c = "" then dataColor else some c
    | none => dataColor) = some c
  rw [hl]
  show (if c = "" then dataColor else some c) = some c
  rw [if_neg hc]

theorem nodeReducerColor_byValue_lookup (m : List (JSValue × String)) (node : String)
    (v : JSValue) (dataColor : Option String) (h1 : v ≠ .null) (h2 : v ≠ .undef) :
    nodeReducerColor false (.byValue m) node v dataColor = m.lookup v := by
  unfold nodeReducerColor
  rw [if_neg (by simp), if_pos ⟨h1, h2⟩]
  rfl

theorem nodeReducerColor_missing_value (pal : PaletteOut) (node : String) (v : JSValue)
    (dataColor : Option String) (hv : v = .null ∨ v = .undef) :
    nodeReducerColor false pal node v dataColor = dataColor := by
  unfold nodeReducerColor
  rw [if_neg (by simp), if_neg (by rcases hv with h | h <;> simp [h])]

/-- C2 (amended): after a successful palette build whose sequential palette
stops are non-empty strings, the reducer's color decision is defined for
every node in Numeric mode, and in Categorical/PTU mode for every node
whose ColorKey value is non-null/non-undefined (the empty-string sentinel
getting the fixed neutral `#d3d3d3`); but — contrary to the claim — a
node whose ColorKey value is null or undefined falls back to the node's
own `color` attribute, which the graph build never sets, so its reduced
color can be undefined. -/
theorem reducer_color_defined_after_publication (ext : Ext) (inp : CommInput) (res : CommResult)
    (dataColor : Option String)
    (hrun : handleCommunitiesBody ext inp = .ok res)
    (hseq : ∀ nm k l, ext.getSequentialColors nm k = .ok l → ∀ c ∈ l, c ≠ "") :
    ∀ n ∈ inp.nodes,
      (res.isNumeric = true →
        ∃ c, nodeReducerColor res.isNumeric res.palette n.id (n.getAttr inp.colorBy) dataColor
          = some c)
      ∧ (res.isNumeric = false →
          (n.getAttr inp.colorBy ≠ .null ∧ n.getAttr inp.colorBy ≠ .undef) →
        ∃ c, nodeReducerColor res.isNumeric res.palette n.id (n.getAttr inp.colorBy) dataColor
          = some c)
      ∧ (res.isNumeric = false → n.getAttr inp.colorBy = .str "" →
        nodeReducerColor res.isNumeric res.palette n.id (n.getAttr inp.colorBy) dataColor
          = some "#d3d3d3")
      ∧ (res.isNumeric = false →
          (n.getAttr inp.colorBy = .null ∨ n.getAttr inp.colorBy = .undef) →
        nodeReducerColor res.isNumeric res.palette n.id (n.getAttr inp.colorBy) dataColor
          = dataColor) := by
  intro n hn
  unfold handleCommunitiesBody at hrun
  rcases hptu : buildPTUPal ext inp.nodes with pal0 | m0
  case thrown =>
    rw [hptu, bindJS_thrown_eq] at hrun
    cases hrun
  rw [hptu, bindJS_ok_eq] at hrun
  by_cases hcb : inp.colorBy = "new_PTU"
  · rw [if_pos hcb] at hrun
    cases hrun
    rcases buildPTUPal_ok ext inp.nodes pal0 hptu with ⟨colors, hpal⟩
    refine ⟨?_, ?_, ?_, ?_⟩
    · intro habs
      exact absurd habs (by simp)
    · rintro - ⟨hnn1, hnn2⟩
      have hvmem : n.getAttr inp.colorBy ∈ ptuValues inp.nodes := by
        have hm := mem_ptuValues inp.nodes n hn
        rw [← hcb] at hm
        rwa [normPTU_eq_self _ hnn1 hnn2] at hm
      rcases lookup_zipIdxColor (ptuEntryColor colors) (ptuValues inp.nodes) _ hvmem 0 with ⟨j, hj⟩
      refine ⟨ptuEntryColor colors j (n.getAttr inp.colorBy), ?_⟩
      show nodeReducerColor false (.byValue pal0) n.id (n.getAttr inp.colorBy) dataColor = _
      rw [nodeReducerColor_byValue_lookup pal0 n.id _ dataColor hnn1 hnn2, hpal]
      exact hj
    · intro _ hvempty
      have hnn1 : n.getAttr inp.colorBy ≠ .null := by rw [hvempty]; exact fun h => by cases h
      have hnn2 : n.getAttr inp.colorBy ≠ .undef := by rw [hvempty]; exact fun h => by cases h
      have hvmem : n.getAttr inp.colorBy ∈ ptuValues inp.nodes := by
        have hm := mem_ptuValues inp.nodes n hn
        rw [← hcb] at hm
        rwa [normPTU_eq_self _ hnn1 hnn2] at hm
      rcases lookup_zipIdxColor (ptuEntryColor colors) (ptuValues inp.nodes) _ hvmem 0 with ⟨j, hj⟩
      show nodeReducerColor false (.byValue pal0) n.id (n.getAttr inp.colorBy) dataColor = _
      rw [nodeReducerColor_byValue_lookup pal0 n.id _ dataColor hnn1 hnn2, hpal, hj, hvempty]
      rfl
    · rintro - hnull
      exact nodeReducerColor_missing_value _ n.id _ dataColor hnull
  · rw [if_neg hcb] at hrun
    by_cases hnum : classifyNumeric inp.colorBy inp.nodes = true
    · rw [if_pos hnum] at hrun
      rcases hbn : buildNumeric ext inp.sequentialPaletteName inp.isReversed inp.scaleType
          (numericPairs inp.colorBy inp.nodes) with pm | m2
      on_goal 2 =>
        rw [hbn, bindJS_thrown_eq] at hrun
        cases hrun
      rw [hbn, bindJS_ok_eq] at hrun
      cases hrun
      unfold buildNumeric at hbn
      rcases hsc : ext.getSequentialColors inp.sequentialPaletteName numGradientSteps
          with l | _ | m3 <;> rw [hsc] at hbn
      on_goal 3 =>
        cases hbn
      on_goal 2 =>
        have hbn2 : (if inp.isReversed = true then
              (JSResult.thrown "TypeError" : JSResult (List (String × String) × Option (List String)))
            else bindJS (assignColors ext inp.scaleType
                (numericMin (numericPairs inp.colorBy inp.nodes))
                (numericMax (numericPairs inp.colorBy inp.nodes)) none
                (numericPairs inp.colorBy inp.nodes))
              (fun palMap => JSResult.ok (palMap, none))) = JSResult.ok pm := hbn
        by_cases hrev : inp.isReversed = true
        · rw [if_pos hrev] at hbn2
          cases hbn2
        · rw [if_neg hrev] at hbn2
          rcases hp : numericPairs inp.colorBy inp.nodes with - | ⟨⟨pid, pv⟩, rest⟩
          · exact absurd hp (numericPairs_ne_nil inp.colorBy inp.nodes hnum n hn)
          · rw [hp, show assignColors ext inp.scaleType
                (numericMin ((pid, pv) :: rest))
                (numericMax ((pid, pv) :: rest)) none
                ((pid, pv) :: rest) = .thrown "TypeError" from rfl,
              bindJS_thrown_eq] at hbn2
            cases hbn2
      have hbn2 : bindJS (assignColors ext inp.scaleType
            (numericMin (numericPairs inp.colorBy inp.nodes))
            (numericMax (numericPairs inp.colorBy inp.nodes))
            (some (if inp.isReversed = true then l.reverse else l))
            (numericPairs inp.colorBy inp.nodes))
          (fun palMap =>
            JSResult.ok (palMap, some (if inp.isReversed = true then l.reverse else l)))
          = JSResult.ok pm := hbn
      rw [assignColors_some, bindJS_ok_eq] at hbn2
      cases hbn2
      refine ⟨?_, ?_, ?_, ?_⟩
      · intro _
        have hmempair := mem_numericPairs_of_classified inp.colorBy inp.nodes hnum n hn
        rcases lookup_map_keyed
            (fun q => jsIndexGetD (if inp.isReversed = true then l.reverse else l)
              (numericStopIndex ext inp.scaleType
                (numericMin (numericPairs inp.colorBy inp.nodes))
                (numericMax (numericPairs inp.colorBy inp.nodes)) q.2) "#888")
            (numericPairs inp.colorBy inp.nodes) n.id ⟨_, hmempair⟩ with ⟨p, hp, hl⟩
        have hcne : jsIndexGetD (if inp.isReversed = true then l.reverse else l)
            (numericStopIndex ext inp.scaleType
              (numericMin (numericPairs inp.colorBy inp.nodes))
              (numericMax (numericPairs inp.colorBy inp.nodes)) p.2) "#888" ≠ "" := by
          by_cases hrev : inp.isReversed = true
          · rw [if_pos hrev]
            rcases jsIndexGetD_mem l.reverse
                (numericStopIndex ext inp.scaleType
                  (numericMin (numericPairs inp.colorBy inp.nodes))
                  (numericMax (numericPairs inp.colorBy inp.nodes)) p.2) "#888" with hmemc | heq
            · exact hseq _ _ l hsc _ (List.mem_reverse.mp hmemc)
            · rw [heq]
              decide
          · rw [if_neg hrev]
            rcases jsIndexGetD_mem l
                (numericStopIndex ext inp.scaleType
                  (numericMin (numericPairs inp.colorBy inp.nodes))
                  (numericMax (numericPairs inp.colorBy inp.nodes)) p.2) "#888" with hmemc | heq
            · exact hseq _ _ l hsc _ hmemc
            · rw [heq]
              decide
        exact ⟨_, nodeReducerColor_byNode_some _ n.id _ dataColor _ hl hcne⟩
      · intro habs
        exact absurd habs (by simp)
      · intro habs
        exact absurd habs (by simp)
      · intro habs
        exact absurd habs (by simp)
    · rw [if_neg hnum] at hrun
      rcases hbc : buildCategorical ext inp.colorBy inp.nodes with ⟨pal, comms⟩ | m2
      on_goal 2 =>
        rw [hbc, bindJS_thrown_eq] at hrun
        cases hrun
      rw [hbc, bindJS_ok_eq] at hrun
      cases hrun
      rcases buildCategorical_ok ext inp.colorBy inp.nodes pal comms hbc with ⟨⟨colors, hpal⟩, hmem⟩
      refine ⟨?_, ?_, ?_, ?_⟩
      · intro habs
        exact absurd habs (by simp)
      · rintro - ⟨hnn1, hnn2⟩
        have hvc : n.getAttr inp.colorBy ∈ comms :=
          (hmem _).mpr ((mem_commValues _ _ _).mpr ⟨⟨hnn1, hnn2⟩, n, hn, rfl⟩)
        rcases lookup_zipIdxColor (catEntryColor colors) comms _ hvc 0 with ⟨j, hj⟩
        refine ⟨catEntryColor colors j (n.getAttr inp.colorBy), ?_⟩
        show nodeReducerColor false (.byValue pal) n.id (n.getAttr inp.colorBy) dataColor = _
        rw [nodeReducerColor_byValue_lookup pal n.id _ dataColor hnn1 hnn2, hpal]
        exact hj
      · intro _ hvempty
        have hnn1 : n.getAttr inp.colorBy ≠ .null := by rw [hvempty]; exact fun h => by cases h
        have hnn2 : n.getAttr inp.colorBy ≠ .undef := by rw [hvempty]; exact fun h => by cases h
        have hvc : n.getAttr inp.colorBy ∈ comms :=
          (hmem _).mpr ((mem_commValues _ _ _).mpr ⟨⟨hnn1, hnn2⟩, n, hn, rfl⟩)
        rcases lookup_zipIdxColor (catEntryColor colors) comms _ hvc 0 with ⟨j, hj⟩
        show nodeReducerColor false (.byValue pal) n.id (n.getAttr inp.colorBy) dataColor = _
        rw [nodeReducerColor_byValue_lookup pal n.id _ dataColor hnn1 hnn2, hpal, hj, hvempty]
        rfl
      · rintro - hnull
        exact nodeReducerColor_missing_value _ n.id _ dataColor hnull

/-- External oracles for the concrete runs: a working distinct-color
generator, a sequential palette returning an empty stop list, inert scales. -/
def extCex : Ext :=
  { iwanthue := fun _ => .ok ["#111111", "#222222", "#333333"]
    getSequentialColors := fun _ _ => .ok []
    rng := fun _ => 0
    logScale := fun _ _ _ => .finite 0
    sqrtScale := fun _ _ _ => .finite 0 }

/-- One edge `a → b`; only `a` has metadata (with a `group` and parsable
coordinates), so `b` becomes a default node with no `group` attribute. -/
def edgesCex : List EdgeRow := [{ source := "a", target := "b", weight := .undef }]

def metaCex : List MetaRow :=
  [{ id := "a", attrs := [("group", .str "g1"), ("x", .num (.finite 1)), ("y", .num (.finite 2))] }]

def nodesCex : List BuiltNode := buildNodes edgesCex metaCex (fun _ => (0, 0))

def inpCex : CommInput :=
  { colorBy := "group", sequentialPaletteName := "Blues", isReversed := false,
    scaleType := "linear", nodes := nodesCex }

def fallbackRes : CommResult :=
  { ptuPal := [], palette := .byValue [], communities := [], visibleComms := [],
    numericPaletteState := none, isNumeric := true }

def resCex : CommResult := (handleCommunitiesBody extCex inpCex).getOkD fallbackRes

/-- C2 counterexample: on the `a → b` row set the build succeeds in
Categorical mode with a non-empty published palette (so the reducer is
installed), node `b` is displayed (not hidden under the default visibility
state), its `group` value is undefined — and the reducer's color decision
for `b` is undefined (`none`), refuting "a defined color for every
displayed node". -/
theorem reducer_undefined_color_counterexample :
    (handleCommunitiesBody extCex inpCex).isOk = true
    ∧ resCex.isNumeric = false
    ∧ paletteSize resCex.palette = 1
    ∧ applyVisibility true false resCex.visibleComms "group" nodesCex (fun _ => false) "b" = false
    ∧ nodeAttrById nodesCex "b" "group" = .undef
    ∧ nodeReducerColor resCex.isNumeric resCex.palette "b" .undef none = none := by
  decide

/-- The node built for id `a` in the counterexample fixture. -/
def nodeACex : BuiltNode :=
  { id := "a", attrs := [("group", .str "g1"), ("x", .num (.finite 1)), ("y", .num (.finite 2))],
    x := .finite 1, y := .finite 2 }

/-- C2 witness: the amended theorem applied to the concrete run — node `a`
has a non-null `group` value and receives a defined color. -/
theorem reducer_color_defined_witness :
    handleCommunitiesBody extCex inpCex = .ok resCex ∧ nodeACex ∈ inpCex.nodes ∧
      ∃ c, nodeReducerColor resCex.isNumeric resCex.palette nodeACex.id
        (nodeACex.getAttr inpCex.colorBy) none = some c :=
  ⟨by decide, by decide,
   (reducer_color_defined_after_publication extCex inpCex resCex none (by decide)
      (fun _ _ l h c hc => by cases h; cases hc) nodeACex (by decide)).2.1 (by decide)
      (by decide)⟩

/-! ### C5 — external generator failure -/

/-- C5 (amended): a distinct-color generator returning nothing is absorbed
(`|| []`) and the categorical build still succeeds with every palette entry
falling back to `#888` (`#d3d3d3` for the missing sentinel); but an
exception raised by `iwanthue` or by the sequential palette is not caught —
it propagates out of the palette build. -/
theorem generator_failure_fallback_and_propagation :
    (∀ ext cb nodes, Ext.iwanthue ext (commValues cb nodes).length = .undef →
      allStringsB ((commValues cb nodes).filter (fun v => v ≠ .str "")) = true →
      ∃ pal comms, buildCategorical ext cb nodes = .ok (pal, comms)
        ∧ ∀ pc ∈ pal, pc.2 = "#888" ∨ pc.2 = "#d3d3d3")
    ∧ (∀ ext inp m, Ext.iwanthue ext (ptuValues inp.nodes).length = .thrown m →
        handleCommunitiesBody ext inp = .thrown m)
    ∧ (∀ ext inp m, (∀ m', Ext.iwanthue ext (ptuValues inp.nodes).length ≠ .thrown m') →
        inp.colorBy ≠ "new_PTU" → classifyNumeric inp.colorBy inp.nodes = true →
        Ext.getSequentialColors ext inp.sequentialPaletteName numGradientSteps = .thrown m →
        handleCommunitiesBody ext inp = .thrown m) := by
  refine ⟨?_, ?_, ?_⟩
  · intro ext cb nodes hiw hstr
    have heq : buildCategorical ext cb nodes =
        match sortJSByLocale ((commValues cb nodes).filter (fun v => v ≠ .str "")) with
        | .thrown m => .thrown m
        | .ok sortedNM =>
            .ok (zipIdxColor (catEntryColor (shuffleColors ext.rng [])) 0
                   (catComms cb nodes sortedNM),
                 catComms cb nodes sortedNM) := by
      unfold buildCategorical
      rw [hiw]
      rfl
    rcases hs : sortJSByLocale ((commValues cb nodes).filter (fun v => v ≠ .str "")) with
      sortedNM | m2
    · refine ⟨zipIdxColor (catEntryColor (shuffleColors ext.rng [])) 0
          (catComms cb nodes sortedNM), catComms cb nodes sortedNM, ?_, ?_⟩
      · rw [heq, hs]
      · intro pc hpc
        refine zipIdxColor_colors _ (fun c => c = "#888" ∨ c = "#d3d3d3") ?_ _ 0 pc hpc
        intro j v
        unfold catEntryColor
        by_cases hv : v = .str ""
        · rw [if_pos hv]
          exact Or.inr rfl
        · rw [if_neg hv]
          rw [show shuffleColors ext.rng [] = [] from rfl]
          exact Or.inl rfl
    · exfalso
      unfold sortJSByLocale at hs
      by_cases h1 : ((commValues cb nodes).filter (fun v => v ≠ .str "")).length ≤ 1
      · rw [if_pos h1] at hs
        cases hs
      · rw [if_neg h1, if_pos hstr] at hs
        cases hs
  · intro ext inp m hiw
    unfold handleCommunitiesBody buildPTUPal
    rw [hiw]
    rfl
  · intro ext inp m hiw hcb hnum hsc
    rcases buildPTUPal_not_thrown ext inp.nodes hiw with ⟨pal0, hptu⟩
    unfold handleCommunitiesBody
    rw [hptu, bindJS_ok_eq, if_neg hcb, if_pos hnum]
    unfold buildNumeric
    rw [hsc]
    rfl

/-- External oracles whose sequential palette raises. -/
def extThrow : Ext :=
  { iwanthue := fun _ => .ok []
    getSequentialColors := fun _ _ => .thrown "boom"
    rng := fun _ => 0
    logScale := fun _ _ _ => .finite 0
    sqrtScale := fun _ _ _ => .finite 0 }

/-- A one-node graph whose `score` column is numeric. -/
def edgesNum : List EdgeRow := [{ source := "n1", target := "n1", weight := .undef }]

def metaNum : List MetaRow :=
  [{ id := "n1", attrs := [("score", .num (.finite 5)), ("x", .num (.finite 0)),
      ("y", .num (.finite 0))] }]

def nodesNum : List BuiltNode := buildNodes edgesNum metaNum (fun _ => (0, 0))

def inpNum : CommInput :=
  { colorBy := "score", sequentialPaletteName := "Blues", isReversed := false,
    scaleType := "linear", nodes := nodesNum }

/-- C5 counterexample: a raising sequential palette makes the palette build
itself fail with the propagated exception, refuting "the palette build
never fails or propagates the error". -/
theorem palette_build_propagates_exception_counterexample :
    handleCommunitiesBody extThrow inpNum = .thrown "boom" := by
  decide

/-- C5 witness: the propagation conjunct applied to the concrete raising
palette. -/
theorem generator_failure_fallback_witness :
    classifyNumeric inpNum.colorBy inpNum.nodes = true
    ∧ handleCommunitiesBody extThrow inpNum = .thrown "boom" :=
  ⟨by decide,
   generator_failure_fallback_and_propagation.2.2 extThrow inpNum "boom"
     (fun _ h => by cases h) (by decide) (by decide) rfl⟩

end PlasmidNet
